import Mathlib

/-!
Formal model of the dance-video skeleton application (`src/main.py`).

The program is a FastAPI service around one class, `DanceSkeletonProcessor`:
* `draw_skeleton` renders detected pose keypoints onto a black canvas
  (green edge lines via `cv2.line`, red joint dots via `cv2.circle`);
* `process_video` opens a source video, reads frames, calls the mediapipe
  detector per frame, renders the skeleton (or a black frame when no
  keypoints were found), horizontally concatenates original and skeleton,
  overlays two text labels and writes the composite to a `VideoWriter`,
  accumulating counters;
* an HTTP endpoint saves the upload to a temp file, runs the pipeline and
  cleans up files, and a health endpoint reports mediapipe availability.

External collaborators (OpenCV decoding/encoding, the mediapipe model, the
fixed `POSE_CONNECTIONS` edge topology, rasterization of lines and circles)
are treated as black boxes: the detector is a function parameter, the edge
topology is a list parameter, and drawing primitives are recorded as
drawing operations applied in order to an all-zero canvas.
-/

namespace DanceAnalyzer

/-- A pose landmark as used by `main.py`: normalized coordinates `x`, `y`
and a `visibility` confidence, modelled as rationals. -/
@[ext]
structure Keypoint where
  x : ℚ
  y : ℚ
  visibility : ℚ
  deriving DecidableEq, Repr

/-- Python `int()` applied to a rational: truncation toward zero
(`int(0.7) = 0`, `int(-0.5) = 0`).  This is what
`int(keypoints[i].x * w)` computes in `draw_skeleton`. -/
def pyInt (q : ℚ) : ℤ :=
  Int.tdiv q.num q.den

/-- Rounding to the nearest integer, as the word `round` in the
specification text reads (`x' = round(x * width)`).  This definition
follows the spec's words, not the source; it exists to be compared with
`pyInt`, which is what the source computes. -/
def specRound (q : ℚ) : ℤ :=
  round q

/-- One drawing primitive executed on the canvas.  `line` records
`cv2.line(canvas, start, end, color, thickness)` and `circle` records
`cv2.circle(canvas, center, radius, color, -1)` (filled). -/
inductive DrawOp where
  | line (start fin : ℤ × ℤ) (color : ℕ × ℕ × ℕ) (thickness : ℕ)
  | circle (center : ℤ × ℤ) (radius : ℕ) (color : ℕ × ℕ × ℕ)
  deriving DecidableEq, Repr

/-- The canvas returned by `draw_skeleton`: the dimensions of the
`np.zeros(frame_shape, dtype=np.uint8)` allocation together with the list
of drawing operations applied to it, in program order. -/
structure Canvas where
  height : ℕ
  width : ℕ
  channels : ℕ
  ops : List DrawOp
  deriving DecidableEq, Repr

/-- Pixel semantics of a canvas, parametric in the rasterizer of the
OpenCV primitives: `raster op p` returns the color `op` paints at pixel
`p`, or `none` when `op` does not cover `p`.  Ops are applied in order to
the all-zero (black) initial canvas, later ops overwriting earlier ones. -/
def renderPixels (raster : DrawOp → ℕ × ℕ → Option (ℕ × ℕ × ℕ))
    (c : Canvas) (p : ℕ × ℕ) : ℕ × ℕ × ℕ :=
  c.ops.foldl (fun acc op => (raster op p).getD acc) (0, 0, 0)

/-- The green `cv2.line` op drawn for a visible connection, with both
endpoints denormalized by `int(x * w)`, `int(y * h)` (source lines 71-73). -/
def lineOpOf (h w : ℕ) (ki kj : Keypoint) : DrawOp :=
  DrawOp.line (pyInt (ki.x * w), pyInt (ki.y * h))
    (pyInt (kj.x * w), pyInt (kj.y * h)) (0, 255, 0) 2

/-- The red filled `cv2.circle` op drawn for a visible keypoint
(source lines 78-79). -/
def circleOpOf (h w : ℕ) (k : Keypoint) : DrawOp :=
  DrawOp.circle (pyInt (k.x * w), pyInt (k.y * h)) 4 (0, 0, 255)

/-- The body of the edge loop of `draw_skeleton` for one `connection`.
Python evaluates `keypoints[start_idx].visibility > 0.5 and
keypoints[end_idx].visibility > 0.5` left to right with short-circuiting:
an out-of-range `start_idx` raises `IndexError` (modelled by `none`), and
`end_idx` is only touched when the first conjunct holds.  A connection
whose visibility test fails contributes no op. -/
def edgeOps (h w : ℕ) (keypoints : List Keypoint) (conn : ℕ × ℕ) :
    Option (List DrawOp) :=
  match keypoints.get? conn.1 with
  | none => none
  | some ki =>
    if ki.visibility > mkRat 1 2 then
      match keypoints.get? conn.2 with
      | none => none
      | some kj =>
        if kj.visibility > mkRat 1 2 then some [lineOpOf h w ki kj]
        else some []
    else some []

/-- The `for connection in self._mp_pose.POSE_CONNECTIONS` loop of
`draw_skeleton` (source lines 68-73): each iteration contributes the
`cv2.line` calls of `edgeOps`, in iteration order; the first `IndexError`
aborts the whole call. -/
def lineOpsFor (h w : ℕ) (keypoints : List Keypoint) :
    List (ℕ × ℕ) → Option (List DrawOp)
  | [] => some []
  | conn :: rest =>
    match edgeOps h w keypoints conn with
    | none => none
    | some l =>
      match lineOpsFor h w keypoints rest with
      | none => none
      | some ls => some (l ++ ls)

/-- `DanceSkeletonProcessor.draw_skeleton(frame_shape, keypoints)`
(source lines 62-81).  `frame_shape` is `(h, w, channels)`; `connections`
models the external `self._mp_pose.POSE_CONNECTIONS` topology in its
iteration order.  Lines are drawn for every connection whose two endpoint
visibilities exceed 0.5, then circles for every keypoint with visibility
above 0.5; an out-of-range connection index raises `IndexError`,
modelled as `none`. -/
def draw_skeleton (frame_shape : ℕ × ℕ × ℕ) (connections : List (ℕ × ℕ))
    (keypoints : List Keypoint) : Option Canvas :=
  match lineOpsFor frame_shape.1 frame_shape.2.1 keypoints connections with
  | none => none
  | some lineOps =>
    let circleOps := keypoints.filterMap fun lm =>
      if lm.visibility > mkRat 1 2 then
        some (circleOpOf frame_shape.1 frame_shape.2.1 lm)
      else none
    some ⟨frame_shape.1, frame_shape.2.1, frame_shape.2.2,
      lineOps ++ circleOps⟩

/-- A decoded video frame: its numpy shape `(height, width, channels)`
plus an opaque token standing for its pixel payload, which the core logic
never inspects (it is only passed through to `np.hstack`). -/
structure Frame where
  height : ℕ
  width : ℕ
  channels : ℕ
  data : ℕ
  deriving DecidableEq, Repr

/-- `frame.shape` of numpy: `(height, width, channels)`. -/
def Frame.shape (f : Frame) : ℕ × ℕ × ℕ :=
  (f.height, f.width, f.channels)

/-- The right half of a composite frame: either the canvas rendered by
`draw_skeleton` (keypoints non-empty) or `np.zeros_like(frame)`
(source lines 110-115). -/
inductive SkeletonHalf where
  | rendered (c : Canvas)
  | black (shape : ℕ × ℕ × ℕ)
  deriving DecidableEq, Repr

/-- One composite output frame: `np.hstack([frame, skeleton_frame])` with
the two `cv2.putText` labels — the literal strings, their positions, font
scale and thickness from source lines 118-124 (the second label sits at
`(width + 10, 30)` where `width` is the capture-reported width). -/
structure CompositeFrame where
  original : Frame
  skeleton : SkeletonHalf
  label1 : String × (ℕ × ℕ) × ℕ × ℕ
  label2 : String × (ℕ × ℕ) × ℕ × ℕ
  deriving DecidableEq, Repr

/-- Observable effects of one pipeline run, in program order. -/
inductive Event where
  | sinkOpened (path : String) (width height : ℕ) (fps : ℚ)
  | frameRead
  | detectCall
  | frameWritten (cf : CompositeFrame)
  deriving DecidableEq, Repr

/-- Errors `process_video` can raise: the `ValueError` "Cannot open video
..." of source line 87 when the capture is not opened (the spec's
`OpenError`), and any exception inside the frame loop (the spec's
`ProcessingError`; in the model the only in-loop failure is an
`IndexError` from `draw_skeleton`). -/
inductive PipeError where
  | openError (path : String)
  | processingError
  deriving DecidableEq, Repr

/-- The dict returned by `process_video` (source lines 133-139). -/
structure ProcessingResult where
  frames : ℕ
  processed_frames : ℕ
  fps : ℚ
  width : ℕ
  height : ℕ
  deriving DecidableEq, Repr

/-- A successfully openable source video, as observed through
`cv2.VideoCapture`: reported fps, reported integer width and height, and
the frames `cap.read()` will yield in order.  `process_video` receives
`Option VideoSource`: `none` models a capture with `isOpened()` false. -/
structure VideoSource where
  fps : ℚ
  width : ℕ
  height : ℕ
  frames : List Frame
  deriving DecidableEq, Repr

/-- The skeleton half computed for one frame from its detected keypoints:
black when the detector returned no keypoints, otherwise the
`draw_skeleton` canvas (which can fail on an out-of-range connection
index). -/
def skeletonHalfFor (connections : List (ℕ × ℕ)) (f : Frame)
    (kps : List Keypoint) : Option SkeletonHalf :=
  if kps.isEmpty then some (SkeletonHalf.black f.shape)
  else (draw_skeleton f.shape connections kps).map SkeletonHalf.rendered

/-- The composite frame built from one source frame and its skeleton half:
`np.hstack` plus the two labels, `"Original"` at `(10, 30)` and
`"Skeleton"` at `(width + 10, 30)`, font scale 1, thickness 2. -/
def compositeOf (width : ℕ) (f : Frame) (skel : SkeletonHalf) :
    CompositeFrame :=
  ⟨f, skel, ("Original", (10, 30), 1, 2), ("Skeleton", (width + 10, 30), 1, 2)⟩

/-- The composite frame the pipeline writes for one source frame, as a
single function of the frame (`none` when `draw_skeleton` would raise). -/
def compositeForFrame (detect : Frame → List Keypoint)
    (connections : List (ℕ × ℕ)) (width : ℕ) (f : Frame) :
    Option CompositeFrame :=
  (skeletonHalfFor connections f (detect f)).map (compositeOf width f)

/-- The `while True` frame loop of `process_video` (source lines 103-127)
over the remaining frames: per frame it reads, calls the detector, builds
the skeleton half, writes the composite, and increments `frame_count`
always and `processed_frames` exactly when the detector returned a
non-empty keypoint list.  Returns the final `(frame_count,
processed_frames)` or the first in-loop error, together with the events
emitted up to that point. -/
def runLoop (detect : Frame → List Keypoint) (connections : List (ℕ × ℕ))
    (width : ℕ) : List Frame → Except PipeError (ℕ × ℕ) × List Event
  | [] => (Except.ok (0, 0), [])
  | f :: fs =>
    let kps := detect f
    match skeletonHalfFor connections f kps with
    | none => (Except.error PipeError.processingError, [Event.frameRead, Event.detectCall])
    | some skel =>
      let cf := compositeOf width f skel
      let rest := runLoop detect connections width fs
      let res := match rest.1 with
        | Except.ok (fc, pc) =>
            Except.ok (fc + 1, pc + (if kps.isEmpty then 0 else 1))
        | Except.error e => Except.error e
      (res, Event.frameRead :: Event.detectCall :: Event.frameWritten cf :: rest.2)

/-- `DanceSkeletonProcessor.process_video(input_path, output_path)`
(source lines 83-139).  A source that cannot be opened raises the
`ValueError` of line 87 before anything else happens (no sink, no reads,
no detector calls — the event list is empty).  Otherwise fps is read with
the `or 25` fallback (25 when the capture reports 0), the `VideoWriter`
is opened at `(width * 2, height)`, the frame loop runs, and on success
the result dict reports the counters, fps and the output dimensions. -/
def process_video (detect : Frame → List Keypoint)
    (connections : List (ℕ × ℕ)) (source : Option VideoSource)
    (input_path output_path : String) :
    Except PipeError ProcessingResult × List Event :=
  match source with
  | none => (Except.error (PipeError.openError input_path), [])
  | some src =>
    let fps := if src.fps = 0 then 25 else src.fps
    let output_width := src.width * 2
    let sinkEv := Event.sinkOpened output_path output_width src.height fps
    let loop := runLoop detect connections src.width src.frames
    match loop.1 with
    | Except.ok (fc, pc) =>
        (Except.ok ⟨fc, pc, fps, output_width, src.height⟩, sinkEv :: loop.2)
    | Except.error e => (Except.error e, sinkEv :: loop.2)

/-- The composite frames a pipeline run wrote to the sink, in order. -/
def writtenFrames (evs : List Event) : List CompositeFrame :=
  evs.filterMap fun e =>
    match e with
    | Event.frameWritten cf => some cf
    | _ => none

/-- The number of `cap.read()` calls that returned a frame in a run. -/
def framesRead (evs : List Event) : ℕ :=
  evs.countP fun e =>
    match e with
    | Event.frameRead => true
    | _ => false

/-- The `HTTPException`s the `/process` endpoint can raise, by source
line, plus the spec taxonomy's `DependencyUnavailableError`, which no
code path produces (the endpoint never checks `_HAS_MEDIAPIPE`):
* `badContentType`: status 400, "File must be a video" (line 156);
* `saveFailed`: status 500, "Failed to save file: ..." (line 169);
* `processingFailed`: status 500, "Processing failed: ..." (line 182) —
  also the error surfaced when the `DanceSkeletonProcessor` constructor
  raises `AttributeError` because `mp` is `None`. -/
inductive EndpointError where
  | badContentType
  | saveFailed
  | processingFailed
  | dependencyUnavailable
  deriving DecidableEq, Repr

/-- Which of the two per-request files remain on disk when the endpoint
call completes: the temporary uploaded input under `uploads/` and the
output video under `processed/`. -/
structure FileState where
  tempExists : Bool
  outputExists : Bool
  deriving DecidableEq, Repr

/-- The environment of one `/process` request: whether `import mediapipe`
succeeded at process start (`_HAS_MEDIAPIPE`), the upload's declared
content type, the outcomes of the two external steps of saving the upload
(`temp_path.open("wb")`, which creates the file, and
`shutil.copyfileobj`, which can fail after creation), and the source as
`cv2.VideoCapture` will see it. -/
structure RequestCtx where
  hasMediapipe : Bool
  contentType : String
  saveOpenOk : Bool
  saveCopyOk : Bool
  source : Option VideoSource
  deriving Repr

/-- Python's `file.content_type.startswith('video/')` test of source
line 155, as a prefix test on the character sequences (extensionally the
behavior of `str.startswith`, in a form the embedding can evaluate). -/
def startswith (s pre : String) : Bool :=
  pre.data.isPrefixOf s.data

/-- The `/process` endpoint (source lines 151-191), tracking the final
file state and the pipeline events.  Control flow of the source:
1. reject non-`video/` content types with a 400 before creating anything;
2. save the upload to `temp_path`: `open("wb")` creates the temp file,
   then `copyfileobj` runs; if either raises, the `except` of line 168
   re-raises a 500 **without deleting the temp file** — so a copy failure
   after creation leaves the temp file on disk;
3. construct `DanceSkeletonProcessor` and run `process_video` inside
   `try/except/finally`: on any exception both files are unlinked
   (`missing_ok=True`) and a 500 is raised; the `finally` always unlinks
   the temp file; when mediapipe is unavailable the constructor raises
   before any pipeline work, so the event list is empty and the error is
   the generic `processingFailed`. -/
def process_video_endpoint (detect : Frame → List Keypoint)
    (connections : List (ℕ × ℕ)) (ctx : RequestCtx)
    (input_path output_path : String) :
    Except EndpointError ProcessingResult × FileState × List Event :=
  if startswith ctx.contentType "video/" = false then
    (Except.error EndpointError.badContentType, ⟨false, false⟩, [])
  else if ctx.saveOpenOk = false then
    (Except.error EndpointError.saveFailed, ⟨false, false⟩, [])
  else if ctx.saveCopyOk = false then
    (Except.error EndpointError.saveFailed, ⟨true, false⟩, [])
  else if ctx.hasMediapipe = false then
    (Except.error EndpointError.processingFailed, ⟨false, false⟩, [])
  else
    match process_video detect connections ctx.source input_path
        output_path with
    | (Except.ok res, evs) => (Except.ok res, ⟨false, true⟩, evs)
    | (Except.error _, evs) =>
        (Except.error EndpointError.processingFailed, ⟨false, false⟩, evs)

/-- The `/health` endpoint (source lines 194-200): always "healthy",
with the `mediapipe_available` flag equal to `_HAS_MEDIAPIPE`. -/
def health_check (hasMediapipe : Bool) : String × Bool :=
  ("healthy", hasMediapipe)

/-! ## Helper lemmas about the renderer -/

/-- Python `int()` agrees with the floor on nonnegative rationals. -/
lemma pyInt_eq_floor (q : ℚ) (h : 0 ≤ q) : pyInt q = ⌊q⌋ := by
  show Int.tdiv q.num q.den = ⌊q⌋
  rw [Rat.floor_def,
    Int.tdiv_eq_ediv (by exact_mod_cast Rat.num_nonneg.mpr h) (by positivity)]

/-- `edgeOps` when both connection indices are in range. -/
lemma edgeOps_eq (h w : ℕ) (kps : List Keypoint) (c : ℕ × ℕ)
    (ki kj : Keypoint) (hki : kps.get? c.1 = some ki)
    (hkj : kps.get? c.2 = some kj) :
    edgeOps h w kps c =
      if ki.visibility > mkRat 1 2 then
        (if kj.visibility > mkRat 1 2 then some [lineOpOf h w ki kj]
         else some [])
      else some [] := by
  unfold edgeOps
  rw [hki, hkj]

/-- `edgeOps` when the first endpoint fails the visibility test: the
second index is never inspected (Python's short-circuiting `and`). -/
lemma edgeOps_eq_nil (h w : ℕ) (kps : List Keypoint) (c : ℕ × ℕ)
    (ki : Keypoint) (hki : kps.get? c.1 = some ki)
    (hnv : ¬(ki.visibility > mkRat 1 2)) :
    edgeOps h w kps c = some [] := by
  unfold edgeOps
  rw [hki]
  simp only [if_neg hnv]

/-- Every op emitted by the connection loop is the line of some listed
connection whose two endpoints both pass the visibility test. -/
lemma lineOpsFor_mem (h w : ℕ) (kps : List Keypoint) :
    ∀ (conns : List (ℕ × ℕ)) (lo : List DrawOp),
      lineOpsFor h w kps conns = some lo → ∀ op ∈ lo,
      ∃ i j ki kj, (i, j) ∈ conns ∧ kps.get? i = some ki ∧
        kps.get? j = some kj ∧ mkRat 1 2 < ki.visibility ∧
        mkRat 1 2 < kj.visibility ∧ op = lineOpOf h w ki kj := by
  intro conns
  induction conns with
  | nil =>
    intro lo hlo op hop
    simp only [lineOpsFor, Option.some.injEq] at hlo
    subst hlo
    simp at hop
  | cons c cs ih =>
    intro lo hlo op hop
    simp only [lineOpsFor] at hlo
    cases he : edgeOps h w kps c with
    | none => rw [he] at hlo; exact absurd hlo (by simp)
    | some l =>
      rw [he] at hlo
      cases hr : lineOpsFor h w kps cs with
      | none => rw [hr] at hlo; exact absurd hlo (by simp)
      | some ls =>
        rw [hr] at hlo
        simp only [Option.some.injEq] at hlo
        subst hlo
        rcases List.mem_append.mp hop with hop1 | hop2
        · cases hk1 : kps.get? c.1 with
          | none =>
            rw [show edgeOps h w kps c = none by unfold edgeOps; rw [hk1]]
              at he
            exact absurd he (by simp)
          | some ki =>
            by_cases hv1 : ki.visibility > mkRat 1 2
            · cases hk2 : kps.get? c.2 with
              | none =>
                rw [show edgeOps h w kps c = none by
                  unfold edgeOps; rw [hk1, hk2]; simp only [if_pos hv1]]
                  at he
                exact absurd he (by simp)
              | some kj =>
                rw [edgeOps_eq h w kps c ki kj hk1 hk2, if_pos hv1] at he
                by_cases hv2 : kj.visibility > mkRat 1 2
                · rw [if_pos hv2] at he
                  simp only [Option.some.injEq] at he
                  subst he
                  simp only [List.mem_singleton] at hop1
                  exact ⟨c.1, c.2, ki, kj, by simp, hk1, hk2, hv1, hv2, hop1⟩
                · rw [if_neg hv2] at he
                  simp only [Option.some.injEq] at he
                  subst he
                  simp at hop1
            · rw [edgeOps_eq_nil h w kps c ki hk1 hv1] at he
              simp only [Option.some.injEq] at he
              subst he
              simp at hop1
        · obtain ⟨i, j, ki, kj, hmem, h2, h3, h4, h5, h6⟩ := ih ls hr op hop2
          exact ⟨i, j, ki, kj, List.mem_cons_of_mem c hmem, h2, h3, h4, h5, h6⟩

/-- When every connection index is in range, the connection loop raises
no `IndexError`. -/
lemma lineOpsFor_isSome (h w : ℕ) (kps : List Keypoint) :
    ∀ (conns : List (ℕ × ℕ)),
      (∀ p ∈ conns, p.1 < kps.length ∧ p.2 < kps.length) →
      (lineOpsFor h w kps conns).isSome := by
  intro conns
  induction conns with
  | nil => intro _; simp [lineOpsFor]
  | cons c cs ih =>
    intro hv
    have hrest := ih fun p hp => hv p (List.mem_cons_of_mem c hp)
    obtain ⟨h1, h2⟩ := hv c (List.mem_cons_self c cs)
    have hki := List.get?_eq_get (l := kps) h1
    have hkj := List.get?_eq_get (l := kps) h2
    cases hlo : lineOpsFor h w kps cs with
    | none => rw [hlo] at hrest; simp at hrest
    | some lo =>
      simp only [lineOpsFor]
      rw [edgeOps_eq h w kps c _ _ hki hkj, hlo]
      by_cases hv1 : (kps.get ⟨c.1, h1⟩).visibility > mkRat 1 2
      · rw [if_pos hv1]
        by_cases hv2 : (kps.get ⟨c.2, h2⟩).visibility > mkRat 1 2
        · rw [if_pos hv2]; rfl
        · rw [if_neg hv2]; rfl
      · rw [if_neg hv1]; rfl

/-- When every keypoint fails the visibility test, the connection loop
draws nothing (given in-range start indices, which is all the loop
inspects before the short-circuiting visibility test). -/
lemma lineOpsFor_invisible (h w : ℕ) (kps : List Keypoint)
    (hvis : ∀ k ∈ kps, k.visibility ≤ mkRat 1 2) :
    ∀ (conns : List (ℕ × ℕ)), (∀ p ∈ conns, p.1 < kps.length) →
      lineOpsFor h w kps conns = some [] := by
  intro conns
  induction conns with
  | nil => intro _; rfl
  | cons c cs ih =>
    intro hv
    have h1 := hv c (List.mem_cons_self c cs)
    have hki := List.get?_eq_get (l := kps) h1
    have hnv : ¬((kps.get ⟨c.1, h1⟩).visibility > mkRat 1 2) :=
      not_lt.mpr (hvis _ (kps.get_mem _ _))
    have hrest := ih fun p hp => hv p (List.mem_cons_of_mem c hp)
    simp only [lineOpsFor]
    rw [edgeOps_eq_nil h w kps c _ hki hnv, hrest]
    rfl

/-- Every circle op of the keypoint loop comes from a keypoint that
passes the visibility test. -/
lemma circleOps_mem (h w : ℕ) (kps : List Keypoint) (op : DrawOp)
    (hop : op ∈ kps.filterMap fun lm =>
      if lm.visibility > mkRat 1 2 then some (circleOpOf h w lm)
      else none) :
    ∃ k ∈ kps, mkRat 1 2 < k.visibility ∧ op = circleOpOf h w k := by
  obtain ⟨k, hk, hf⟩ := List.mem_filterMap.mp hop
  by_cases hvk : k.visibility > mkRat 1 2
  · rw [if_pos hvk] at hf
    exact ⟨k, hk, hvk, (Option.some.injEq _ _ ▸ hf).symm⟩
  · rw [if_neg hvk] at hf
    exact absurd hf (by simp)

/-- When every keypoint fails the visibility test, the keypoint loop
draws no circle. -/
lemma circleOps_invisible (h w : ℕ) (kps : List Keypoint)
    (hvis : ∀ k ∈ kps, k.visibility ≤ mkRat 1 2) :
    (kps.filterMap fun lm =>
      if lm.visibility > mkRat 1 2 then some (circleOpOf h w lm)
      else none) = [] := by
  rw [List.filterMap_eq_nil_iff]
  intro k hk
  rw [if_neg (not_lt.mpr (hvis k hk))]

/-! ## Helper lemmas about the pipeline loop -/

@[simp] lemma writtenFrames_nil : writtenFrames [] = [] := rfl

@[simp] lemma writtenFrames_frameRead (l : List Event) :
    writtenFrames (Event.frameRead :: l) = writtenFrames l := rfl

@[simp] lemma writtenFrames_detectCall (l : List Event) :
    writtenFrames (Event.detectCall :: l) = writtenFrames l := rfl

@[simp] lemma writtenFrames_sinkOpened (p : String) (w h : ℕ) (fps : ℚ)
    (l : List Event) :
    writtenFrames (Event.sinkOpened p w h fps :: l) = writtenFrames l := rfl

@[simp] lemma writtenFrames_frameWritten (cf : CompositeFrame)
    (l : List Event) :
    writtenFrames (Event.frameWritten cf :: l) = cf :: writtenFrames l := rfl

/-- Unfolding of one successful loop iteration. -/
lemma runLoop_cons_eq (detect : Frame → List Keypoint)
    (conns : List (ℕ × ℕ)) (w : ℕ) (f : Frame) (fs : List Frame)
    (skel : SkeletonHalf)
    (hs : skeletonHalfFor conns f (detect f) = some skel) :
    runLoop detect conns w (f :: fs) =
      ((match (runLoop detect conns w fs).1 with
        | Except.ok (fc, pc) =>
            Except.ok (fc + 1, pc + (if (detect f).isEmpty then 0 else 1))
        | Except.error e => Except.error e),
       Event.frameRead :: Event.detectCall ::
         Event.frameWritten (compositeOf w f skel) ::
         (runLoop detect conns w fs).2) := by
  simp only [runLoop]
  rw [hs]

/-- Unfolding of a loop iteration whose rendering raises. -/
lemma runLoop_cons_err (detect : Frame → List Keypoint)
    (conns : List (ℕ × ℕ)) (w : ℕ) (f : Frame) (fs : List Frame)
    (hs : skeletonHalfFor conns f (detect f) = none) :
    runLoop detect conns w (f :: fs) =
      (Except.error PipeError.processingError,
       [Event.frameRead, Event.detectCall]) := by
  simp only [runLoop]
  rw [hs]

/-- On a run that completes, `frame_count` is the number of frames read
and `processed_frames` counts exactly the frames whose detection was
non-empty. -/
lemma runLoop_ok_counts (detect : Frame → List Keypoint)
    (conns : List (ℕ × ℕ)) (w : ℕ) (fs : List Frame) :
    ∀ fc pc, (runLoop detect conns w fs).1 = Except.ok (fc, pc) →
      fc = fs.length ∧
      pc = fs.countP fun f => !(detect f).isEmpty := by
  induction fs with
  | nil =>
    intro fc pc hh
    simp only [runLoop, Except.ok.injEq, Prod.mk.injEq] at hh
    exact ⟨hh.1.symm, by simp [hh.2.symm]⟩
  | cons f fs ih =>
    intro fc pc hh
    cases hs : skeletonHalfFor conns f (detect f) with
    | none => rw [runLoop_cons_err detect conns w f fs hs] at hh; simp at hh
    | some skel =>
      rw [runLoop_cons_eq detect conns w f fs skel hs] at hh
      cases hr : (runLoop detect conns w fs).1 with
      | error e => rw [hr] at hh; simp at hh
      | ok p =>
        obtain ⟨fc', pc'⟩ := p
        rw [hr] at hh
        simp only [Except.ok.injEq, Prod.mk.injEq] at hh
        obtain ⟨hfc, hpc⟩ := hh
        obtain ⟨ih1, ih2⟩ := ih fc' pc' hr
        constructor
        · rw [← hfc, ih1, List.length_cons]
        · rw [← hpc, ih2, List.countP_cons]
          cases hke : (detect f).isEmpty <;> simp [hke]

/-- On a run that completes, exactly one composite frame is written per
frame read, and the Nth written frame is the composite of the Nth read
frame. -/
lemma runLoop_ok_written (detect : Frame → List Keypoint)
    (conns : List (ℕ × ℕ)) (w : ℕ) (fs : List Frame) :
    ∀ r evs, runLoop detect conns w fs = (Except.ok r, evs) →
      (writtenFrames evs).length = fs.length ∧
      ∀ n : ℕ, Option.bind fs[n]? (compositeForFrame detect conns w) =
        (writtenFrames evs)[n]? := by
  induction fs with
  | nil =>
    intro r evs hh
    simp only [runLoop, Prod.mk.injEq] at hh
    obtain ⟨-, h2⟩ := hh
    subst h2
    exact ⟨rfl, fun n => by simp⟩
  | cons f fs ih =>
    intro r evs hh
    cases hs : skeletonHalfFor conns f (detect f) with
    | none => rw [runLoop_cons_err detect conns w f fs hs] at hh; simp at hh
    | some skel =>
      rw [runLoop_cons_eq detect conns w f fs skel hs] at hh
      cases hr : runLoop detect conns w fs with
      | mk r' evs' =>
        rw [hr] at hh
        cases r' with
        | error e => simp at hh
        | ok p =>
          simp only [Prod.mk.injEq] at hh
          obtain ⟨h1, h2⟩ := hh
          subst h2
          obtain ⟨ihl, ihn⟩ := ih p evs' (by rw [hr])
          constructor
          · simp [ihl]
          · intro n
            cases n with
            | zero => simp [compositeForFrame, hs]
            | succ n => simpa using ihn n

/-- Unfolding of `process_video` on a source that opens. -/
lemma process_video_some_eq (detect : Frame → List Keypoint)
    (conns : List (ℕ × ℕ)) (src : VideoSource) (ip op : String) :
    process_video detect conns (some src) ip op =
      ((match (runLoop detect conns src.width src.frames).1 with
        | Except.ok (fc, pc) =>
            Except.ok ⟨fc, pc, if src.fps = 0 then 25 else src.fps,
              src.width * 2, src.height⟩
        | Except.error e => Except.error e),
       Event.sinkOpened op (src.width * 2) src.height
           (if src.fps = 0 then 25 else src.fps) ::
         (runLoop detect conns src.width src.frames).2) := by
  simp only [process_video]
  cases hr : (runLoop detect conns src.width src.frames).1 with
  | ok p => obtain ⟨fc, pc⟩ := p; rfl
  | error e => rfl

/-! ## Claims about the frame renderer -/

/-- C2: on any canvas produced by `draw_skeleton`, an edge line is drawn
only for a listed connection `(i, j)` whose two endpoint keypoints both
have visibility above 0.5, and a joint circle is drawn only for a
keypoint with visibility above 0.5 — so no marker and no edge op of the
canvas involves a keypoint with visibility at most 0.5. -/
theorem draw_skeleton_visibility_threshold (shape : ℕ × ℕ × ℕ)
    (conns : List (ℕ × ℕ)) (kps : List Keypoint) (c : Canvas)
    (hdraw : draw_skeleton shape conns kps = some c) :
    ∀ op ∈ c.ops,
      (∃ i j ki kj, (i, j) ∈ conns ∧ kps.get? i = some ki ∧
        kps.get? j = some kj ∧ mkRat 1 2 < ki.visibility ∧
        mkRat 1 2 < kj.visibility ∧
        op = lineOpOf shape.1 shape.2.1 ki kj) ∨
      (∃ k ∈ kps, mkRat 1 2 < k.visibility ∧
        op = circleOpOf shape.1 shape.2.1 k) := by
  intro op hop
  simp only [draw_skeleton] at hdraw
  cases hlo : lineOpsFor shape.1 shape.2.1 kps conns with
  | none => rw [hlo] at hdraw; exact absurd hdraw (by simp)
  | some lo =>
    rw [hlo] at hdraw
    simp only [Option.some.injEq] at hdraw
    subst hdraw
    rcases List.mem_append.mp hop with h1 | h2
    · exact Or.inl (lineOpsFor_mem shape.1 shape.2.1 kps conns lo hlo op h1)
    · exact Or.inr (circleOps_mem shape.1 shape.2.1 kps op h2)

/-- Witness for C2 at a concrete rendering call. -/
theorem draw_skeleton_visibility_threshold_witness :
    draw_skeleton (10, 10, 3) [(0, 1)]
      [⟨0, 0, 1⟩, ⟨mkRat 1 2, mkRat 1 2, 1⟩] =
      some (Canvas.mk 10 10 3
        [lineOpOf 10 10 ⟨0, 0, 1⟩ ⟨mkRat 1 2, mkRat 1 2, 1⟩,
         circleOpOf 10 10 ⟨0, 0, 1⟩,
         circleOpOf 10 10 ⟨mkRat 1 2, mkRat 1 2, 1⟩]) ∧
    ∀ op ∈ (Canvas.mk 10 10 3
      [lineOpOf 10 10 ⟨0, 0, 1⟩ ⟨mkRat 1 2, mkRat 1 2, 1⟩,
       circleOpOf 10 10 ⟨0, 0, 1⟩, circleOpOf 10 10 ⟨mkRat 1 2, mkRat 1 2, 1⟩]).ops,
      (∃ i j ki kj, (i, j) ∈ [((0 : ℕ), (1 : ℕ))] ∧
        ([⟨0, 0, 1⟩, ⟨mkRat 1 2, mkRat 1 2, 1⟩] : List Keypoint).get? i = some ki ∧
        ([⟨0, 0, 1⟩, ⟨mkRat 1 2, mkRat 1 2, 1⟩] : List Keypoint).get? j = some kj ∧
        mkRat 1 2 < ki.visibility ∧ mkRat 1 2 < kj.visibility ∧
        op = lineOpOf 10 10 ki kj) ∨
      (∃ k ∈ ([⟨0, 0, 1⟩, ⟨mkRat 1 2, mkRat 1 2, 1⟩] : List Keypoint),
        mkRat 1 2 < k.visibility ∧ op = circleOpOf 10 10 k) :=
  ⟨rfl, draw_skeleton_visibility_threshold (10, 10, 3) [(0, 1)]
    [⟨0, 0, 1⟩, ⟨mkRat 1 2, mkRat 1 2, 1⟩] _ rfl⟩

/-- C5 (amended): keypoint positions are denormalized by Python `int()`
truncation, which on the nonnegative normalized coordinates equals the
floor of `x * width` and `y * height` — not by rounding to nearest. -/
theorem draw_skeleton_denormalizes_by_truncation (shape : ℕ × ℕ × ℕ)
    (conns : List (ℕ × ℕ)) (kps : List Keypoint) (c : Canvas)
    (hdraw : draw_skeleton shape conns kps = some c)
    (hnn : ∀ k ∈ kps, 0 ≤ k.x ∧ 0 ≤ k.y) :
    ∀ op ∈ c.ops,
      (∃ ki kj, ki ∈ kps ∧ kj ∈ kps ∧
        op = DrawOp.line (⌊ki.x * shape.2.1⌋, ⌊ki.y * shape.1⌋)
          (⌊kj.x * shape.2.1⌋, ⌊kj.y * shape.1⌋) (0, 255, 0) 2) ∨
      (∃ k ∈ kps,
        op = DrawOp.circle (⌊k.x * shape.2.1⌋, ⌊k.y * shape.1⌋)
          4 (0, 0, 255)) := by
  intro op hop
  simp only [draw_skeleton] at hdraw
  cases hlo : lineOpsFor shape.1 shape.2.1 kps conns with
  | none => rw [hlo] at hdraw; exact absurd hdraw (by simp)
  | some lo =>
    rw [hlo] at hdraw
    simp only [Option.some.injEq] at hdraw
    subst hdraw
    rcases List.mem_append.mp hop with h1 | h2
    · obtain ⟨i, j, ki, kj, -, hki, hkj, -, -, hop'⟩ :=
        lineOpsFor_mem shape.1 shape.2.1 kps conns lo hlo op h1
      have hmi := List.get?_mem hki
      have hmj := List.get?_mem hkj
      refine Or.inl ⟨ki, kj, hmi, hmj, ?_⟩
      rw [hop']
      unfold lineOpOf
      rw [pyInt_eq_floor _ (mul_nonneg (hnn ki hmi).1 (by positivity)),
        pyInt_eq_floor _ (mul_nonneg (hnn ki hmi).2 (by positivity)),
        pyInt_eq_floor _ (mul_nonneg (hnn kj hmj).1 (by positivity)),
        pyInt_eq_floor _ (mul_nonneg (hnn kj hmj).2 (by positivity))]
    · obtain ⟨k, hk, -, hop'⟩ := circleOps_mem shape.1 shape.2.1 kps op h2
      refine Or.inr ⟨k, hk, ?_⟩
      rw [hop']
      unfold circleOpOf
      rw [pyInt_eq_floor _ (mul_nonneg (hnn k hk).1 (by positivity)),
        pyInt_eq_floor _ (mul_nonneg (hnn k hk).2 (by positivity))]

/-- Witness for the amended C5 at a concrete rendering call. -/
theorem draw_skeleton_denormalizes_by_truncation_witness :
    draw_skeleton (10, 10, 3) [(0, 1)]
      [⟨0, 0, 1⟩, ⟨mkRat 1 2, mkRat 1 2, 1⟩] =
      some (Canvas.mk 10 10 3
        [lineOpOf 10 10 ⟨0, 0, 1⟩ ⟨mkRat 1 2, mkRat 1 2, 1⟩,
         circleOpOf 10 10 ⟨0, 0, 1⟩,
         circleOpOf 10 10 ⟨mkRat 1 2, mkRat 1 2, 1⟩]) ∧
    ∀ op ∈ (Canvas.mk 10 10 3
      [lineOpOf 10 10 ⟨0, 0, 1⟩ ⟨mkRat 1 2, mkRat 1 2, 1⟩,
       circleOpOf 10 10 ⟨0, 0, 1⟩, circleOpOf 10 10 ⟨mkRat 1 2, mkRat 1 2, 1⟩]).ops,
      (∃ ki kj, ki ∈ ([⟨0, 0, 1⟩, ⟨mkRat 1 2, mkRat 1 2, 1⟩] : List Keypoint) ∧
        kj ∈ ([⟨0, 0, 1⟩, ⟨mkRat 1 2, mkRat 1 2, 1⟩] : List Keypoint) ∧
        op = DrawOp.line (⌊ki.x * (10 : ℕ)⌋, ⌊ki.y * (10 : ℕ)⌋)
          (⌊kj.x * (10 : ℕ)⌋, ⌊kj.y * (10 : ℕ)⌋) (0, 255, 0) 2) ∨
      (∃ k ∈ ([⟨0, 0, 1⟩, ⟨mkRat 1 2, mkRat 1 2, 1⟩] : List Keypoint),
        op = DrawOp.circle (⌊k.x * (10 : ℕ)⌋, ⌊k.y * (10 : ℕ)⌋)
          4 (0, 0, 255)) :=
  ⟨rfl, draw_skeleton_denormalizes_by_truncation (10, 10, 3) [(0, 1)]
    [⟨0, 0, 1⟩, ⟨mkRat 1 2, mkRat 1 2, 1⟩] _ rfl (by decide)⟩

/-- C5 (counterexample): at the keypoint `x = y = 0.7` with `w = h = 1`
the drawn circle sits at pixel 0 (`int(0.7) = 0`) while the rounding the
claim states would place it at pixel 1 — `draw_skeleton` does not round. -/
theorem draw_skeleton_round_counterexample :
    draw_skeleton (1, 1, 3) [] [⟨mkRat 7 10, mkRat 7 10, 1⟩] =
      some ⟨1, 1, 3, [circleOpOf 1 1 ⟨mkRat 7 10, mkRat 7 10, 1⟩]⟩ ∧
    circleOpOf 1 1 ⟨mkRat 7 10, mkRat 7 10, 1⟩ =
      DrawOp.circle (0, 0) 4 (0, 0, 255) ∧
    specRound (mkRat 7 10 * ((1 : ℕ) : ℚ)) = 1 ∧
    (0 : ℤ) ≠ 1 := by
  have hmul : mkRat 7 10 * ((1 : ℕ) : ℚ) = mkRat 7 10 := by
    rw [Nat.cast_one, mul_one]
  have hpy : pyInt (mkRat 7 10 * ((1 : ℕ) : ℚ)) = 0 := by
    unfold pyInt
    rw [hmul]
    decide
  refine ⟨rfl, ?_, ?_, by decide⟩
  · unfold circleOpOf
    rw [show (⟨mkRat 7 10, mkRat 7 10, 1⟩ : Keypoint).x = mkRat 7 10 from rfl,
      show (⟨mkRat 7 10, mkRat 7 10, 1⟩ : Keypoint).y = mkRat 7 10 from rfl,
      hpy]
  · unfold specRound
    rw [hmul, round_eq]
    norm_num [Rat.mkRat_eq_div]

/-- C6: under the precondition that every connection index is in range,
`draw_skeleton` cannot fail, returns a canvas of exactly the requested
frame dimensions, and when every keypoint fails the visibility test it
emits no drawing op, so every pixel of the canvas is zero (black) under
any rasterization of the primitives. -/
theorem draw_skeleton_no_error_conditions (shape : ℕ × ℕ × ℕ)
    (conns : List (ℕ × ℕ)) (kps : List Keypoint)
    (hvalid : ∀ p ∈ conns, p.1 < kps.length ∧ p.2 < kps.length) :
    ∃ c, draw_skeleton shape conns kps = some c ∧
      c.height = shape.1 ∧ c.width = shape.2.1 ∧ c.channels = shape.2.2 ∧
      ((∀ k ∈ kps, k.visibility ≤ mkRat 1 2) →
        c.ops = [] ∧
        ∀ raster p, renderPixels raster c p = (0, 0, 0)) := by
  have hs := lineOpsFor_isSome shape.1 shape.2.1 kps conns hvalid
  cases hlo : lineOpsFor shape.1 shape.2.1 kps conns with
  | none => rw [hlo] at hs; simp at hs
  | some lo =>
    refine ⟨⟨shape.1, shape.2.1, shape.2.2,
      lo ++ kps.filterMap fun lm =>
        if lm.visibility > mkRat 1 2 then
          some (circleOpOf shape.1 shape.2.1 lm)
        else none⟩, ?_, rfl, rfl, rfl, ?_⟩
    · simp only [draw_skeleton]
      rw [hlo]
    · intro hvis
      have hnil : lo = [] := by
        have h2 := lineOpsFor_invisible shape.1 shape.2.1 kps hvis conns
          fun p hp => (hvalid p hp).1
        rw [hlo] at h2
        exact Option.some.inj h2
      have hcirc := circleOps_invisible shape.1 shape.2.1 kps hvis
      have hops : (lo ++ kps.filterMap fun lm =>
          if lm.visibility > mkRat 1 2 then
            some (circleOpOf shape.1 shape.2.1 lm)
          else none) = [] := by
        rw [hnil, hcirc]
        rfl
      exact ⟨hops, fun raster p => by simp [renderPixels, hops]⟩

/-- Witness for C6 at a concrete all-invisible rendering call. -/
theorem draw_skeleton_no_error_conditions_witness :
    ∃ c, draw_skeleton (6, 8, 3) [(0, 1)]
        [⟨0, 0, 0⟩, ⟨1, 1, mkRat 1 4⟩] = some c ∧
      c.height = 6 ∧ c.width = 8 ∧ c.channels = 3 ∧
      ((∀ k ∈ ([⟨0, 0, 0⟩, ⟨1, 1, mkRat 1 4⟩] : List Keypoint),
          k.visibility ≤ mkRat 1 2) →
        c.ops = [] ∧
        ∀ raster p, renderPixels raster c p = (0, 0, 0)) :=
  draw_skeleton_no_error_conditions (6, 8, 3) [(0, 1)]
    [⟨0, 0, 0⟩, ⟨1, 1, mkRat 1 4⟩] (by decide)

/-- C10: the rendered canvas is a deterministic function of the frame
dimensions, the edge topology and the keypoint values alone — two calls
whose keypoints agree pointwise in `(x, y, visibility)` return identical
canvases (the original frame's pixel content is never consulted:
`draw_skeleton` receives only `frame.shape`). -/
theorem draw_skeleton_deterministic (shape : ℕ × ℕ × ℕ)
    (conns : List (ℕ × ℕ)) (kps1 kps2 : List Keypoint)
    (hlen : kps1.length = kps2.length)
    (hpt : ∀ i k1 k2, kps1.get? i = some k1 → kps2.get? i = some k2 →
      k1.x = k2.x ∧ k1.y = k2.y ∧ k1.visibility = k2.visibility) :
    draw_skeleton shape conns kps1 = draw_skeleton shape conns kps2 := by
  have heq : kps1 = kps2 := by
    apply List.ext_get hlen
    intro i h1 h2
    obtain ⟨hx, hy, hv⟩ :=
      hpt i _ _ (List.get?_eq_get h1) (List.get?_eq_get h2)
    exact Keypoint.ext hx hy hv
  rw [heq]

/-- Witness for C10 at a concrete pair of pointwise-equal calls. -/
theorem draw_skeleton_deterministic_witness :
    draw_skeleton (4, 4, 3) [] [⟨0, 0, 1⟩] =
      draw_skeleton (4, 4, 3) [] [⟨0, 0, 1⟩] :=
  draw_skeleton_deterministic (4, 4, 3) [] [⟨0, 0, 1⟩] [⟨0, 0, 1⟩] rfl
    (by
      intro i k1 k2 h1 h2
      cases i with
      | zero =>
        simp only [List.get?] at h1 h2
        cases h1
        cases h2
        exact ⟨rfl, rfl, rfl⟩
      | succ n => simp [List.get?] at h1)

/-! ## Claims about the video pipeline -/

/-- C1: on every completed run, `frame_count` is the number of frames
read from the source and `processed_frames` counts exactly the frames
whose detection returned a non-empty keypoint list; consequently
`processed_frames` is at most `frame_count`, with equality exactly when
every frame read yielded a non-empty keypoint list. -/
theorem process_video_counter_invariant (detect : Frame → List Keypoint)
    (conns : List (ℕ × ℕ)) (src : VideoSource) (ip op : String)
    (res : ProcessingResult) (evs : List Event)
    (hrun : process_video detect conns (some src) ip op =
      (Except.ok res, evs)) :
    res.frames = src.frames.length ∧
    res.processed_frames =
      src.frames.countP (fun f => !(detect f).isEmpty) ∧
    res.processed_frames ≤ res.frames ∧
    (res.processed_frames = res.frames ↔
      ∀ f ∈ src.frames, detect f ≠ []) := by
  rw [process_video_some_eq] at hrun
  cases hr : (runLoop detect conns src.width src.frames).1 with
  | error e => rw [hr] at hrun; simp at hrun
  | ok p =>
    obtain ⟨fc, pc⟩ := p
    rw [hr] at hrun
    simp only [Prod.mk.injEq, Except.ok.injEq] at hrun
    obtain ⟨h1, -⟩ := hrun
    obtain ⟨hfc, hpc⟩ := runLoop_ok_counts detect conns src.width
      src.frames fc pc hr
    subst h1
    refine ⟨hfc, hpc, ?_, ?_⟩
    · show pc ≤ fc
      rw [hfc, hpc]
      exact List.countP_le_length _
    · show pc = fc ↔ _
      rw [hfc, hpc, List.countP_eq_length]
      refine forall₂_congr fun f hf => ?_
      cases hd : detect f <;> simp [hd]

/-- Witness for C1 at a concrete two-frame run with one detected frame. -/
theorem process_video_counter_invariant_witness :
    (ProcessingResult.mk 2 1 25 8 4).frames =
      (VideoSource.mk 25 4 4 [⟨4, 4, 3, 0⟩, ⟨4, 4, 3, 1⟩]).frames.length ∧
    (ProcessingResult.mk 2 1 25 8 4).processed_frames =
      (VideoSource.mk 25 4 4 [⟨4, 4, 3, 0⟩, ⟨4, 4, 3, 1⟩]).frames.countP
        (fun f => !((fun f : Frame =>
          if f.data = 0 then ([] : List Keypoint)
          else [⟨mkRat 1 2, mkRat 1 2, 1⟩]) f).isEmpty) ∧
    (ProcessingResult.mk 2 1 25 8 4).processed_frames ≤
      (ProcessingResult.mk 2 1 25 8 4).frames ∧
    ((ProcessingResult.mk 2 1 25 8 4).processed_frames =
        (ProcessingResult.mk 2 1 25 8 4).frames ↔
      ∀ f ∈ (VideoSource.mk 25 4 4 [⟨4, 4, 3, 0⟩, ⟨4, 4, 3, 1⟩]).frames,
        (fun f : Frame =>
          if f.data = 0 then ([] : List Keypoint)
          else [⟨mkRat 1 2, mkRat 1 2, 1⟩]) f ≠ []) :=
  process_video_counter_invariant
    (fun f => if f.data = 0 then [] else [⟨mkRat 1 2, mkRat 1 2, 1⟩]) []
    ⟨25, 4, 4, [⟨4, 4, 3, 0⟩, ⟨4, 4, 3, 1⟩]⟩ "in.mp4" "out.mp4"
    ⟨2, 1, 25, 8, 4⟩ _ rfl

/-- C3: whenever the source opens, the sink is opened at exactly twice
the source width and the source height (side-by-side layout), and any
returned `ProcessingResult` reports those output dimensions — regardless
of the source's frames or the detector's results. -/
theorem process_video_output_dimensions (detect : Frame → List Keypoint)
    (conns : List (ℕ × ℕ)) (src : VideoSource) (ip op : String)
    (r : Except PipeError ProcessingResult) (evs : List Event)
    (hrun : process_video detect conns (some src) ip op = (r, evs)) :
    (∃ fps, Event.sinkOpened op (src.width * 2) src.height fps ∈ evs) ∧
    ∀ res, r = Except.ok res →
      res.width = src.width * 2 ∧ res.height = src.height := by
  rw [process_video_some_eq] at hrun
  cases hr : (runLoop detect conns src.width src.frames).1 with
  | error e =>
    rw [hr] at hrun
    simp only [Prod.mk.injEq] at hrun
    obtain ⟨h1, h2⟩ := hrun
    subst h2
    refine ⟨⟨_, List.mem_cons_self _ _⟩, ?_⟩
    intro res hres
    rw [← h1] at hres
    simp at hres
  | ok p =>
    obtain ⟨fc, pc⟩ := p
    rw [hr] at hrun
    simp only [Prod.mk.injEq] at hrun
    obtain ⟨h1, h2⟩ := hrun
    subst h2
    refine ⟨⟨_, List.mem_cons_self _ _⟩, ?_⟩
    intro res hres
    rw [← h1] at hres
    simp only [Except.ok.injEq] at hres
    rw [← hres]
    exact ⟨rfl, rfl⟩

/-- Witness for C3 at a concrete run. -/
theorem process_video_output_dimensions_witness :
    (∃ fps, Event.sinkOpened "out.mp4" (4 * 2) 4 fps ∈
      (process_video (fun _ => []) []
        (some ⟨25, 4, 4, [⟨4, 4, 3, 0⟩]⟩) "in.mp4" "out.mp4").2) ∧
    ∀ res, (process_video (fun _ => []) []
        (some ⟨25, 4, 4, [⟨4, 4, 3, 0⟩]⟩) "in.mp4" "out.mp4").1 =
          Except.ok res →
      res.width = 4 * 2 ∧ res.height = 4 :=
  process_video_output_dimensions (fun _ => []) []
    ⟨25, 4, 4, [⟨4, 4, 3, 0⟩]⟩ "in.mp4" "out.mp4" _ _ rfl

/-- C4: on every completed run, exactly one composite frame is written to
the sink per frame read, in arrival order: the Nth frame written is the
composite built from the Nth frame read, with no reordering, drops or
duplicates. -/
theorem process_video_write_order (detect : Frame → List Keypoint)
    (conns : List (ℕ × ℕ)) (src : VideoSource) (ip op : String)
    (res : ProcessingResult) (evs : List Event)
    (hrun : process_video detect conns (some src) ip op =
      (Except.ok res, evs)) :
    (writtenFrames evs).length = src.frames.length ∧
    ∀ n : ℕ,
      Option.bind src.frames[n]? (compositeForFrame detect conns src.width)
        = (writtenFrames evs)[n]? := by
  rw [process_video_some_eq] at hrun
  cases hr : runLoop detect conns src.width src.frames with
  | mk r' evs' =>
    rw [hr] at hrun
    cases r' with
    | error e => simp at hrun
    | ok p =>
      simp only [Prod.mk.injEq, Except.ok.injEq] at hrun
      obtain ⟨-, h2⟩ := hrun
      subst h2
      obtain ⟨hl, hn⟩ := runLoop_ok_written detect conns src.width
        src.frames p evs' hr
      exact ⟨by simpa using hl, fun n => by simpa using hn n⟩

/-- Witness for C4 at a concrete two-frame run. -/
theorem process_video_write_order_witness :
    (writtenFrames (process_video
      (fun f : Frame => if f.data = 0 then ([] : List Keypoint)
        else [⟨mkRat 1 2, mkRat 1 2, 1⟩]) []
      (some ⟨25, 4, 4, [⟨4, 4, 3, 0⟩, ⟨4, 4, 3, 1⟩]⟩)
      "in.mp4" "out.mp4").2).length =
      (VideoSource.mk 25 4 4 [⟨4, 4, 3, 0⟩, ⟨4, 4, 3, 1⟩]).frames.length ∧
    ∀ n : ℕ,
      Option.bind
        (VideoSource.mk 25 4 4 [⟨4, 4, 3, 0⟩, ⟨4, 4, 3, 1⟩]).frames[n]?
        (compositeForFrame
          (fun f : Frame => if f.data = 0 then ([] : List Keypoint)
            else [⟨mkRat 1 2, mkRat 1 2, 1⟩]) [] 4)
        = (writtenFrames (process_video
          (fun f : Frame => if f.data = 0 then ([] : List Keypoint)
            else [⟨mkRat 1 2, mkRat 1 2, 1⟩]) []
          (some ⟨25, 4, 4, [⟨4, 4, 3, 0⟩, ⟨4, 4, 3, 1⟩]⟩)
          "in.mp4" "out.mp4").2)[n]? :=
  process_video_write_order
    (fun f => if f.data = 0 then [] else [⟨mkRat 1 2, mkRat 1 2, 1⟩]) []
    ⟨25, 4, 4, [⟨4, 4, 3, 0⟩, ⟨4, 4, 3, 1⟩]⟩ "in.mp4" "out.mp4"
    ⟨2, 1, 25, 8, 4⟩ _ rfl

/-- C7: a source that cannot be opened raises the open error before any
downstream work: the event trace is empty — no sink is opened, no frame
is read, no detector call is made and nothing is written. -/
theorem process_video_open_failure (detect : Frame → List Keypoint)
    (conns : List (ℕ × ℕ)) (ip op : String) :
    process_video detect conns none ip op =
      (Except.error (PipeError.openError ip), []) := rfl

/-! ## Claims about the HTTP endpoints -/

/-- C8 (counterexample): a failure while copying the upload into the
already-created temp file raises the 500 of source line 169 without any
cleanup — the temporary input file is left on disk after the call. -/
theorem endpoint_temp_file_leak :
    (process_video_endpoint (fun _ => []) []
        ⟨true, "video/mp4", true, false, none⟩ "in.mp4"
        "out.mp4").2.1.tempExists = true ∧
    (process_video_endpoint (fun _ => []) []
        ⟨true, "video/mp4", true, false, none⟩ "in.mp4" "out.mp4").1 =
      Except.error EndpointError.saveFailed := ⟨rfl, rfl⟩

/-- C8 (amended): the temporary uploaded input file is deleted after the
call on the success path and on every error path except a failure of the
upload-save step itself after the temp file was created (source lines
166-169 re-raise without cleanup); on every error outcome — in
particular any processing error after the output file may have been
created — the output file is not left on disk. -/
theorem endpoint_file_cleanup (detect : Frame → List Keypoint)
    (conns : List (ℕ × ℕ)) (ctx : RequestCtx) (ip op : String)
    (hsave : ctx.saveOpenOk = true → ctx.saveCopyOk = true) :
    (process_video_endpoint detect conns ctx ip op).2.1.tempExists =
      false ∧
    ∀ e, (process_video_endpoint detect conns ctx ip op).1 =
        Except.error e →
      (process_video_endpoint detect conns ctx ip op).2.1.outputExists =
        false := by
  unfold process_video_endpoint
  by_cases h1 : startswith ctx.contentType "video/" = false
  · rw [if_pos h1]
    exact ⟨rfl, fun e he => rfl⟩
  · rw [if_neg h1]
    by_cases h2 : ctx.saveOpenOk = false
    · rw [if_pos h2]
      exact ⟨rfl, fun e he => rfl⟩
    · rw [if_neg h2]
      have h3 : ¬(ctx.saveCopyOk = false) := by
        rw [hsave (by revert h2; cases ctx.saveOpenOk <;> simp)]
        simp
      rw [if_neg h3]
      by_cases h4 : ctx.hasMediapipe = false
      · rw [if_pos h4]
        exact ⟨rfl, fun e he => rfl⟩
      · rw [if_neg h4]
        cases hrun : process_video detect conns ctx.source ip op with
        | mk r evs =>
          cases r with
          | ok res => exact ⟨rfl, fun e he => by simp at he⟩
          | error e' => exact ⟨rfl, fun e he => rfl⟩

/-- Witness for the amended C8 at a concrete successful request. -/
theorem endpoint_file_cleanup_witness :
    (process_video_endpoint (fun _ => []) []
        ⟨true, "video/mp4", true, true, some ⟨25, 4, 4, []⟩⟩ "in.mp4"
        "out.mp4").2.1.tempExists = false ∧
    ∀ e, (process_video_endpoint (fun _ => []) []
        ⟨true, "video/mp4", true, true, some ⟨25, 4, 4, []⟩⟩ "in.mp4"
        "out.mp4").1 = Except.error e →
      (process_video_endpoint (fun _ => []) []
        ⟨true, "video/mp4", true, true, some ⟨25, 4, 4, []⟩⟩ "in.mp4"
        "out.mp4").2.1.outputExists = false :=
  endpoint_file_cleanup (fun _ => []) []
    ⟨true, "video/mp4", true, true, some ⟨25, 4, 4, []⟩⟩ "in.mp4"
    "out.mp4" (fun _ => rfl)

/-- C9 (counterexample): with mediapipe unavailable, a well-formed
request fails with the generic "Processing failed" 500 (raised when the
`DanceSkeletonProcessor` constructor hits `mp = None`), not with a
dedicated dependency-missing error — the endpoint never checks
`_HAS_MEDIAPIPE`. -/
theorem endpoint_error_not_dependency_specific :
    (process_video_endpoint (fun _ => []) []
        ⟨false, "video/mp4", true, true, none⟩ "in.mp4" "out.mp4").1 =
      Except.error EndpointError.processingFailed ∧
    (Except.error EndpointError.processingFailed :
        Except EndpointError ProcessingResult) ≠
      Except.error EndpointError.dependencyUnavailable :=
  ⟨rfl, by simp⟩

/-- C9 (amended): when the pose-detection dependency failed to load, the
health endpoint reports `mediapipe_available: false`, and every call to
the process endpoint fails without performing any frame read — but with
the generic processing error of source line 182, not a dedicated
dependency-missing error. -/
theorem endpoint_dependency_unavailable (detect : Frame → List Keypoint)
    (conns : List (ℕ × ℕ)) (ctx : RequestCtx) (ip op : String)
    (hmp : ctx.hasMediapipe = false) :
    health_check ctx.hasMediapipe = ("healthy", false) ∧
    (∀ res, (process_video_endpoint detect conns ctx ip op).1 ≠
      Except.ok res) ∧
    (process_video_endpoint detect conns ctx ip op).2.2 = [] ∧
    framesRead (process_video_endpoint detect conns ctx ip op).2.2 = 0 ∧
    (startswith ctx.contentType "video/" = true →
      ctx.saveOpenOk = true → ctx.saveCopyOk = true →
      (process_video_endpoint detect conns ctx ip op).1 =
        Except.error EndpointError.processingFailed) := by
  have hhealth : health_check ctx.hasMediapipe = ("healthy", false) := by
    unfold health_check
    rw [hmp]
  unfold process_video_endpoint
  by_cases h1 : startswith ctx.contentType "video/" = false
  · rw [if_pos h1]
    refine ⟨hhealth, fun res h => by simp at h, rfl, rfl, fun hct _ _ => ?_⟩
    rw [hct] at h1
    simp at h1
  · rw [if_neg h1]
    by_cases h2 : ctx.saveOpenOk = false
    · rw [if_pos h2]
      refine ⟨hhealth, fun res h => by simp at h, rfl, rfl,
        fun _ ho _ => ?_⟩
      rw [ho] at h2
      simp at h2
    · rw [if_neg h2]
      by_cases h3 : ctx.saveCopyOk = false
      · rw [if_pos h3]
        refine ⟨hhealth, fun res h => by simp at h, rfl, rfl,
          fun _ _ hc => ?_⟩
        rw [hc] at h3
        simp at h3
      · rw [if_neg h3, if_pos hmp]
        exact ⟨hhealth, fun res h => by simp at h, rfl, rfl,
          fun _ _ _ => rfl⟩

/-- Witness for the amended C9 at a concrete request with mediapipe
unavailable. -/
theorem endpoint_dependency_unavailable_witness :
    health_check false = ("healthy", false) ∧
    (∀ res, (process_video_endpoint (fun _ => []) []
        ⟨false, "video/mp4", true, true, none⟩ "in.mp4" "out.mp4").1 ≠
      Except.ok res) ∧
    (process_video_endpoint (fun _ => []) []
        ⟨false, "video/mp4", true, true, none⟩ "in.mp4" "out.mp4").2.2 =
      [] ∧
    framesRead (process_video_endpoint (fun _ => []) []
        ⟨false, "video/mp4", true, true, none⟩ "in.mp4"
        "out.mp4").2.2 = 0 ∧
    (startswith "video/mp4" "video/" = true → true = true →
      true = true →
      (process_video_endpoint (fun _ => []) []
        ⟨false, "video/mp4", true, true, none⟩ "in.mp4" "out.mp4").1 =
        Except.error EndpointError.processingFailed) :=
  endpoint_dependency_unavailable (fun _ => []) []
    ⟨false, "video/mp4", true, true, none⟩ "in.mp4" "out.mp4" rfl

end DanceAnalyzer
